import Mathlib

/-!
# Verification of the GoitomServices record-ingestion and aggregation pipeline

Shallow embedding of `src/goitomapp/server.ts` (and the publishing logic of
`src/goitomapp/src/App.tsx`): the bread-count parsing of the Gemini reply, the
record-creation endpoint, the listing endpoints and the statistics rollups.

Modelling conventions:
* JavaScript strings are Lean `String`s / `List Char`;
* SQLite `INTEGER` columns are `Nat` (all values written by the server are
  non-negative), the `REAL` column `cash_amount` is modelled by exact
  rationals `Rat`;
* the `DATETIME` column `timestamp` (filled with `CURRENT_TIMESTAMP`) is
  modelled as seconds on a linear clock (`Nat`); SQLite's `date(timestamp)`
  truncates a timestamp to its calendar date, modelled as division by 86400;
  text comparison of `YYYY-MM-DD HH:MM:SS` strings agrees with the numeric
  comparison of these clocks;
* the single SQL statements used by the server (INSERT, SELECT ... ORDER BY,
  GROUP BY ... SUM) are modelled as pure functions on the list of rows.
-/

namespace Goitom

/-! ## JavaScript string helpers used by the server

`server.ts` line 107-108:
```
const countText = response.text?.trim() || "0";
const breadCount = parseInt(countText.replace(/[^0-9]/g, '')) || 0;
```
-/

/-- The characters removed by JavaScript's `String.prototype.trim`:
ECMAScript WhiteSpace (TAB, VT, FF, SP, NBSP, ZWNBSP and the Unicode
space separators) together with the LineTerminators (LF, CR, LS, PS). -/
def jsWhitespace : List Char :=
  ['\t', '\n', '\x0b', '\x0c', '\r', ' ', ' ', ' ',
   ' ', ' ', ' ', ' ', ' ', ' ', ' ',
   ' ', ' ', ' ', ' ', ' ', ' ', ' ',
   ' ', '　', '﻿']

/-- Whether `String.prototype.trim` removes the character `c`. -/
def isJsWS (c : Char) : Bool := decide (c ∈ jsWhitespace)

/-- JavaScript `String.prototype.trim`, on the character list of the string:
drop whitespace from the front and from the back. -/
def jsTrim (l : List Char) : List Char :=
  ((l.dropWhile isJsWS).reverse.dropWhile isJsWS).reverse

/-- The regex replacement `replace(/[^0-9]/g, '')`: keep only decimal digits. -/
def sanitizeDigits (l : List Char) : List Char := l.filter Char.isDigit

/-- Value of a string of decimal digits, most significant first. -/
def digitsVal (l : List Char) : Nat := l.foldl (fun n c => n * 10 + (c.toNat - 48)) 0

/-- JavaScript `parseInt(s) || 0` applied to a string of decimal digits:
`parseInt` of the empty string is `NaN`, which `|| 0` turns into `0`
(as it also does to a parsed `0`); otherwise the value of the digit string. -/
def parseIntOr0 (l : List Char) : Nat := if l = [] then 0 else digitsVal l

/-- `server.ts` lines 107-108: normalize the (possibly missing) free-text
reply of the vision service into a bread count.  `response.text` missing or
trimming to the empty string falls back to `"0"`; then every non-digit is
removed and the remainder parsed, `NaN` defaulting to `0`. -/
def breadCountOf (reply : Option String) : Nat :=
  let trimmed : List Char :=
    match reply with
    | none => []
    | some s => jsTrim s.data
  let countText : List Char := if trimmed = [] then ['0'] else trimmed
  parseIntOr0 (sanitizeDigits countText)

/-- The parsing policy in the words of the spec: "the service's free-text
reply is sanitized by removing every non-digit character and parsing the
remainder as an integer; an empty or non-numeric result yields a count of 0",
and a missing reply also yields 0. -/
def specBreadCount (reply : Option String) : Nat :=
  match reply with
  | none => 0
  | some s =>
      let ds := s.data.filter Char.isDigit
      if ds = [] then 0 else digitsVal ds

/-! ### Facts about trimming and digit filtering -/

theorem ws_not_digit : ∀ c ∈ jsWhitespace, Char.isDigit c = false := by decide

theorem isJsWS_not_digit {c : Char} (h : isJsWS c = true) : Char.isDigit c = false :=
  ws_not_digit c (of_decide_eq_true h)

theorem filter_dropWhile_eq (p q : Char → Bool) (h : ∀ c, q c = true → p c = false) :
    ∀ l : List Char, (l.dropWhile q).filter p = l.filter p := by
  intro l
  induction l with
  | nil => rfl
  | cons c cs ih =>
    by_cases hq : q c = true
    · rw [List.dropWhile_cons_of_pos hq, ih, List.filter_cons_of_neg]
      simp [h c hq]
    · rw [List.dropWhile_cons_of_neg (by simpa using hq)]

theorem filter_digit_jsTrim (l : List Char) :
    (jsTrim l).filter Char.isDigit = l.filter Char.isDigit := by
  unfold jsTrim
  rw [List.filter_reverse, filter_dropWhile_eq _ _ (fun c h => isJsWS_not_digit h),
    List.filter_reverse, List.reverse_reverse,
    filter_dropWhile_eq _ _ (fun c h => isJsWS_not_digit h)]

theorem jsTrim_nil_filter {l : List Char} (h : jsTrim l = []) :
    l.filter Char.isDigit = [] := by
  rw [← filter_digit_jsTrim, h]
  rfl

theorem breadCountOf_eq_spec (reply : Option String) :
    breadCountOf reply = specBreadCount reply := by
  cases reply with
  | none => decide
  | some s =>
    show parseIntOr0 (sanitizeDigits (if jsTrim s.data = [] then ['0'] else jsTrim s.data))
        = (if s.data.filter Char.isDigit = [] then 0 else digitsVal (s.data.filter Char.isDigit))
    by_cases h : jsTrim s.data = []
    · rw [if_pos h, jsTrim_nil_filter h]
      decide
    · rw [if_neg h]
      show parseIntOr0 ((jsTrim s.data).filter Char.isDigit) = _
      rw [filter_digit_jsTrim]
      rfl

/-! ## Data model

`server.ts` lines 23-33: the `records` table.  `server.ts` lines 15-21: the
`users` table. -/

/-- One row of the `records` table. -/
structure Record where
  id : Nat
  user_id : Nat
  employee_name : String
  provider_name : String
  bread_count : Nat
  cash_amount : Rat
  image_url : String
  timestamp : Nat
  deriving DecidableEq, Repr

/-- One row of the `users` table. -/
structure User where
  id : Nat
  email : String
  password : String
  role : String
  name : String
  deriving DecidableEq, Repr

/-- The `records` table together with its `AUTOINCREMENT` counter. -/
structure Store where
  nextId : Nat
  rows : List Record
  deriving DecidableEq, Repr

/-! ## The record-creation endpoint (`POST /api/records`, lines 79-121) -/

/-- JavaScript `String.prototype.split` with a one-character separator. -/
def jsSplit (sep : Char) : List Char → List (List Char)
  | [] => [[]]
  | c :: cs =>
      let r := jsSplit sep cs
      if c = sep then [] :: r
      else
        match r with
        | [] => [[c]]
        | h :: t => (c :: h) :: t

/-- `server.ts` line 99: the `inlineData.data` sent to the vision service is
`imageBase64.split(',')[1]` — the element at index 1 of the comma-split,
`undefined` (here `none`) when there is no such element. -/
def sentImageData (s : String) : Option (List Char) :=
  (jsSplit ',' s.data).get? 1

/-- The transmitted image data in the words of the spec: "the adapter strips
any data-URI prefix before transmission", a payload without such a prefix
being transmitted unchanged. -/
def specSentImageData (s : String) : List Char :=
  if "data:".data.isPrefixOf s.data ∧ ',' ∈ s.data then
    (s.data.dropWhile (fun c => c ≠ ',')).drop 1
  else s.data

/-- Outcome of the single `ai.models.generateContent` call: either a reply
whose `text` field may be missing, or a thrown error (network/service
failure). -/
inductive VisionResult where
  | ok (text : Option String)
  | fail
  deriving DecidableEq, Repr

/-- The request body of `POST /api/records` (line 80); `cashAmount` is an
optional field, defaulted by the destructuring `cashAmount = 0`. -/
structure CreateReq where
  userId : Nat
  employeeName : String
  providerName : String
  imageBase64 : String
  cashAmount : Option Rat
  deriving DecidableEq, Repr

/-- Response of `POST /api/records`: on success `{id, breadCount}` (line
116), otherwise a status-500 error message (lines 83, 119). -/
abbrev CreateResult := Except String (Nat × Nat)

/-- `POST /api/records` (lines 79-121): check the API key, call the vision
service, normalize its reply into `breadCount`, insert one row, and return
the generated id with the count.  On a missing key or a failed call nothing
is inserted and an error is returned.  `now` is the clock value SQLite uses
for the row's `CURRENT_TIMESTAMP` default. -/
def createRecord (apiKey : Option String) (vision : VisionResult) (req : CreateReq)
    (st : Store) (now : Nat) : CreateResult × Store :=
  match apiKey with
  | none => (Except.error "Gemini API key not configured", st)
  | some _ =>
      match vision with
      | VisionResult.fail => (Except.error "Failed to process image", st)
      | VisionResult.ok text =>
          let breadCount := breadCountOf text
          let r : Record :=
            { id := st.nextId
              user_id := req.userId
              employee_name := req.employeeName
              provider_name := req.providerName
              bread_count := breadCount
              cash_amount := req.cashAmount.getD 0
              image_url := req.imageBase64
              timestamp := now }
          (Except.ok (st.nextId, breadCount), { nextId := st.nextId + 1, rows := st.rows ++ [r] })

/-- `App.tsx` line 197: the client sends `cashAmount: parseFloat(cashAmount) || 0`;
the argument is the result of `parseFloat` on the text input, `none`
standing for `NaN` (absent or non-numeric input). -/
def publishCash (parsed : Option Rat) : Rat :=
  match parsed with
  | none => 0
  | some v => if v = 0 then 0 else v

/-! ## The listing endpoint (`GET /api/records`, lines 123-132) -/

/-- `ORDER BY timestamp DESC`: `a` may come before `b` when its timestamp is
at least as large. -/
def byNewest (a b : Record) : Prop := b.timestamp ≤ a.timestamp

instance : DecidableRel byNewest := fun a b => inferInstanceAs (Decidable (b.timestamp ≤ a.timestamp))

instance : IsTotal Record byNewest := ⟨fun a b => le_total b.timestamp a.timestamp⟩

instance : IsTrans Record byNewest := ⟨fun _ _ _ h1 h2 => le_trans h2 h1⟩

/-- `SELECT * FROM records WHERE user_id = ? ORDER BY timestamp DESC`
(line 129): the non-admin branch of `GET /api/records`. -/
def listForUser (uid : Nat) (st : Store) : List Record :=
  List.insertionSort byNewest (st.rows.filter (fun r => r.user_id = uid))

/-- `SELECT * FROM records ORDER BY timestamp DESC` (line 127): the admin
branch of `GET /api/records`. -/
def listAll (st : Store) : List Record :=
  List.insertionSort byNewest st.rows

/-! ## The statistics endpoint (`GET /api/stats`, lines 161-178) -/

/-- SQLite's `date(timestamp)`: the calendar date of a timestamp, on the
seconds-clock model the day index. -/
def dayOf (r : Record) : Nat := r.timestamp / 86400

/-- Sum of `bread_count` over the records of calendar day `d`. -/
def sumBreadOn (d : Nat) (rows : List Record) : Nat :=
  ((rows.filter (fun r => dayOf r = d)).map Record.bread_count).sum

/-- Sum of `cash_amount` over the records of calendar day `d`. -/
def sumCashOn (d : Nat) (rows : List Record) : Rat :=
  ((rows.filter (fun r => dayOf r = d)).map Record.cash_amount).sum

/-- Sum of `bread_count` over the records of employee name `n`. -/
def sumBreadFor (n : String) (rows : List Record) : Nat :=
  ((rows.filter (fun r => r.employee_name = n)).map Record.bread_count).sum

/-- Sum of `cash_amount` over the records of employee name `n`. -/
def sumCashFor (n : String) (rows : List Record) : Rat :=
  ((rows.filter (fun r => r.employee_name = n)).map Record.cash_amount).sum

/-- One output row of the daily rollup (line 163). -/
structure DayRow where
  date : Nat
  total : Nat
  total_cash : Rat
  deriving DecidableEq, Repr

/-- One output row of the per-employee rollup (line 171). -/
structure EmpRow where
  employee_name : String
  total : Nat
  total_cash : Rat
  deriving DecidableEq, Repr

/-- `ORDER BY date DESC` on day keys. -/
def dayGE (a b : Nat) : Prop := b ≤ a

instance : DecidableRel dayGE := fun a b => inferInstanceAs (Decidable (b ≤ a))

instance : IsTotal Nat dayGE := ⟨fun a b => le_total b a⟩

instance : IsTrans Nat dayGE := ⟨fun _ _ _ h1 h2 => le_trans h2 h1⟩

/-- The distinct `date(timestamp)` group keys of the records table. -/
def dayKeys (rows : List Record) : List Nat := (rows.map dayOf).dedup

/-- The output row the daily rollup produces for group key `d`. -/
def dayRowOf (rows : List Record) (d : Nat) : DayRow :=
  { date := d, total := sumBreadOn d rows, total_cash := sumCashOn d rows }

/-- `GET /api/stats` lines 162-168:
`SELECT date(timestamp) as date, SUM(bread_count) as total,
SUM(cash_amount) as total_cash FROM records GROUP BY date(timestamp)
ORDER BY date DESC LIMIT 7`. -/
def dailyTotals (st : Store) : List DayRow :=
  ((List.insertionSort dayGE (dayKeys st.rows)).take 7).map (dayRowOf st.rows)

/-- `ORDER BY total DESC` on per-employee rows. -/
def empGE (a b : EmpRow) : Prop := b.total ≤ a.total

instance : DecidableRel empGE := fun a b => inferInstanceAs (Decidable (b.total ≤ a.total))

instance : IsTotal EmpRow empGE := ⟨fun a b => le_total b.total a.total⟩

instance : IsTrans EmpRow empGE := ⟨fun _ _ _ h1 h2 => le_trans h2 h1⟩

/-- The distinct `employee_name` group keys of the records table. -/
def empKeys (rows : List Record) : List String := (rows.map Record.employee_name).dedup

/-- The output row the per-employee rollup produces for group key `n`. -/
def empRowOf (rows : List Record) (n : String) : EmpRow :=
  { employee_name := n, total := sumBreadFor n rows, total_cash := sumCashFor n rows }

/-- `GET /api/stats` lines 170-175:
`SELECT employee_name, SUM(bread_count) as total, SUM(cash_amount) as
total_cash FROM records GROUP BY employee_name ORDER BY total DESC`. -/
def employeeTotals (st : Store) : List EmpRow :=
  List.insertionSort empGE ((empKeys st.rows).map (empRowOf st.rows))

/-! ## The exposed operations as a transition system (for the immutability
invariant): record creation, the two read endpoints, profile update
(`PUT /api/profile`, lines 140-153) and user deletion
(`DELETE /api/users/:id`, lines 155-159). -/

/-- Whole server state: the `users` and `records` tables. -/
structure AppState where
  users : List User
  store : Store
  deriving DecidableEq, Repr

/-- The exposed operations. -/
inductive Op where
  | create (apiKey : Option String) (vision : VisionResult) (req : CreateReq) (now : Nat)
  | getRecords (uid : Nat) (role : String)
  | getStats
  | updateProfile (id : Nat) (email name : String) (password : Option String)
  | deleteUser (id : Nat)
  deriving DecidableEq, Repr

/-- `PUT /api/profile` (lines 140-153): `UPDATE users SET email = ?, name = ?
[, password = ?] WHERE id = ?`; only the `users` table is touched. -/
def updateProfileUsers (id : Nat) (email name : String) (password : Option String)
    (users : List User) : List User :=
  users.map (fun u =>
    if u.id = id then
      { u with email := email, name := name, password := password.getD u.password }
    else u)

/-- State transition of each exposed operation.  The two read endpoints
run `SELECT`s only; `DELETE /api/users/:id` deletes from `users` only (no
cascade touches `records`). -/
def step (op : Op) (st : AppState) : AppState :=
  match op with
  | Op.create apiKey vision req now =>
      { st with store := (createRecord apiKey vision req st.store now).2 }
  | Op.getRecords _ _ => st
  | Op.getStats => st
  | Op.updateProfile id email name password =>
      { st with users := updateProfileUsers id email name password st.users }
  | Op.deleteUser id =>
      { st with users := st.users.filter (fun u => u.id ≠ id) }

/-! ## Helper lemmas on `jsSplit` -/

theorem jsSplit_no_sep {sep : Char} : ∀ {l : List Char}, sep ∉ l → jsSplit sep l = [l] := by
  intro l
  induction l with
  | nil => intro _; rfl
  | cons c cs ih =>
    intro h
    have hc : ¬(c = sep) := fun e => h (e ▸ List.mem_cons_self c cs)
    have hcs : sep ∉ cs := fun m => h (List.mem_cons_of_mem c m)
    simp only [jsSplit, if_neg hc, ih hcs]

theorem jsSplit_pre {sep : Char} :
    ∀ {pre : List Char}, sep ∉ pre → ∀ rest : List Char,
      jsSplit sep (pre ++ sep :: rest) = pre :: jsSplit sep rest := by
  intro pre
  induction pre with
  | nil => intro _ rest; simp [jsSplit]
  | cons c cs ih =>
    intro h rest
    have hc : ¬(c = sep) := fun e => h (e ▸ List.mem_cons_self c cs)
    have hcs : sep ∉ cs := fun m => h (List.mem_cons_of_mem c m)
    simp only [List.cons_append, jsSplit, List.append_eq, if_neg hc, ih hcs rest]

/-! ## Claim theorems for the ingestion pipeline -/

/-- C1: a successful `createRecord` call (API key present, vision call
succeeds) appends exactly one record to the store, that record's
`bread_count` is the normalized parse of the reply, its id is the generated
`nextId`, and the response returns exactly this id and count. -/
theorem createRecord_success_appends_one (k : String) (text : Option String)
    (req : CreateReq) (st : Store) (now : Nat) :
    ∃ r : Record,
      (createRecord (some k) (VisionResult.ok text) req st now).2.rows = st.rows ++ [r]
      ∧ r.bread_count = breadCountOf text
      ∧ r.id = st.nextId
      ∧ (createRecord (some k) (VisionResult.ok text) req st now).1
          = Except.ok (r.id, r.bread_count)
      ∧ (createRecord (some k) (VisionResult.ok text) req st now).2.nextId = st.nextId + 1 :=
  ⟨_, rfl, rfl, rfl, rfl, rfl⟩

/-- C2: the derived bread count is exactly the spec's parsing policy — delete
every non-digit of the reply and parse the remaining digit string, with 0 for
a missing reply or a reply without digits — and is never negative. -/
theorem breadCount_parsing_policy (reply : Option String) :
    breadCountOf reply = specBreadCount reply
    ∧ breadCountOf none = 0
    ∧ (∀ s, reply = some s → s.data.filter Char.isDigit = [] → breadCountOf reply = 0)
    ∧ 0 ≤ (breadCountOf reply : Int) := by
  refine ⟨breadCountOf_eq_spec reply, by decide, ?_, Int.natCast_nonneg _⟩
  intro s hs hf
  subst hs
  rw [breadCountOf_eq_spec]
  simp [specBreadCount, hf]

/-- C2 witness: the spec's own example, reply "no bread here", yields 0. -/
theorem breadCount_parsing_policy_witness : breadCountOf (some "no bread here") = 0 :=
  (breadCount_parsing_policy (some "no bread here")).2.2.1 "no bread here" rfl (by decide)

/-- C3: both failure paths of `createRecord` — missing API key and failed
vision call — return an error with a non-empty descriptive message and leave
the store (hence the records table) exactly unchanged. -/
theorem createRecord_failure_no_write (vision : VisionResult) (req : CreateReq)
    (st : Store) (now : Nat) (k : String) :
    createRecord none vision req st now = (Except.error "Gemini API key not configured", st)
    ∧ createRecord (some k) VisionResult.fail req st now
        = (Except.error "Failed to process image", st)
    ∧ "Gemini API key not configured" ≠ ""
    ∧ "Failed to process image" ≠ "" :=
  ⟨rfl, rfl, by decide, by decide⟩

/-- C9: a missing `cashAmount` is defaulted to 0 by the server, a supplied
numeric one is stored as sent, and the submission succeeds either way; on the
client, `parseFloat(cashAmount) || 0` maps a non-numeric input (`none`) to 0
and a numeric input to itself. -/
theorem cashAmount_defaulting (k : String) (text : Option String) (uid : Nat)
    (en pn img : String) (st : Store) (now : Nat) (v : Rat) :
    (∃ r : Record,
      (createRecord (some k) (VisionResult.ok text) ⟨uid, en, pn, img, none⟩ st now).2.rows
        = st.rows ++ [r]
      ∧ r.cash_amount = 0
      ∧ (createRecord (some k) (VisionResult.ok text) ⟨uid, en, pn, img, none⟩ st now).1.isOk
          = true)
    ∧ (∃ r : Record,
      (createRecord (some k) (VisionResult.ok text) ⟨uid, en, pn, img, some v⟩ st now).2.rows
        = st.rows ++ [r]
      ∧ r.cash_amount = v
      ∧ (createRecord (some k) (VisionResult.ok text) ⟨uid, en, pn, img, some v⟩ st now).1.isOk
          = true)
    ∧ publishCash none = 0
    ∧ publishCash (some v) = v := by
  refine ⟨⟨_, rfl, rfl, rfl⟩, ⟨_, rfl, rfl, rfl⟩, rfl, ?_⟩
  show (if v = 0 then (0 : Rat) else v) = v
  by_cases h : v = 0
  · rw [if_pos h, h]
  · rw [if_neg h]

/-- C10 counterexample: a payload with no data-URI prefix (no comma at all),
here `"AAAA"`, is not transmitted unchanged — the code transmits the element
at index 1 of the comma-split, which does not exist (`undefined`). -/
theorem sentImageData_no_prefix_counterexample :
    sentImageData "AAAA" = none
    ∧ specSentImageData "AAAA" = "AAAA".data
    ∧ sentImageData "AAAA" ≠ some (specSentImageData "AAAA") := by
  refine ⟨by decide, by decide, by decide⟩

/-- C10 amended: for a payload of the form `prefix ++ "," ++ data` where
neither part contains a further comma (in particular any data-URI payload,
whose base64 body is comma-free), the transmitted data is exactly the part
after the comma, i.e. the payload with its data-URI prefix removed; a payload
containing no comma transmits nothing (`undefined`). -/
theorem sentImageData_amended (pre post : List Char)
    (h1 : ',' ∉ pre) (h2 : ',' ∉ post) :
    sentImageData (String.mk (pre ++ ',' :: post)) = some post
    ∧ ∀ l : List Char, ',' ∉ l → sentImageData (String.mk l) = none := by
  constructor
  · show (jsSplit ',' (pre ++ ',' :: post)).get? 1 = some post
    rw [jsSplit_pre h1 post, jsSplit_no_sep h2]
    rfl
  · intro l hl
    show (jsSplit ',' l).get? 1 = none
    rw [jsSplit_no_sep hl]
    rfl

/-- C10 amended, witness: a concrete data-URI payload has its prefix
stripped. -/
theorem sentImageData_amended_witness :
    sentImageData (String.mk ("data:image/jpeg;base64".data ++ ',' :: "QUJD".data))
      = some "QUJD".data :=
  (sentImageData_amended "data:image/jpeg;base64".data "QUJD".data
    (by decide) (by decide)).1

/-! ## Helper lemmas for the listing and aggregation theorems -/

theorem mem_listForUser {uid : Nat} {st : Store} {r : Record} :
    r ∈ listForUser uid st ↔ r ∈ st.rows ∧ r.user_id = uid := by
  rw [listForUser, List.mem_insertionSort, List.mem_filter]
  simp

theorem sortedDayKeys_pairwise_gt (rows : List Record) :
    (List.insertionSort dayGE (dayKeys rows)).Pairwise (fun a b => b < a) := by
  have hs : (List.insertionSort dayGE (dayKeys rows)).Pairwise dayGE :=
    List.sorted_insertionSort dayGE (dayKeys rows)
  have hn : (List.insertionSort dayGE (dayKeys rows)).Nodup :=
    (List.perm_insertionSort dayGE (dayKeys rows)).nodup_iff.mpr (List.nodup_dedup _)
  exact (hs.and hn).imp (fun h => lt_of_le_of_ne h.1 h.2.symm)

theorem mem_dayKeys {rows : List Record} {d : Nat} :
    d ∈ dayKeys rows ↔ ∃ r, r ∈ rows ∧ dayOf r = d := by
  rw [dayKeys, List.mem_dedup, List.mem_map]

theorem mem_empKeys {rows : List Record} {n : String} :
    n ∈ empKeys rows ↔ ∃ r, r ∈ rows ∧ r.employee_name = n := by
  rw [empKeys, List.mem_dedup, List.mem_map]

theorem sumBreadFor_perm {rows1 rows2 : List Record} (h : rows1.Perm rows2) (n : String) :
    sumBreadFor n rows1 = sumBreadFor n rows2 :=
  ((h.filter _).map Record.bread_count).sum_eq

theorem sumCashFor_perm {rows1 rows2 : List Record} (h : rows1.Perm rows2) (n : String) :
    sumCashFor n rows1 = sumCashFor n rows2 :=
  ((h.filter _).map Record.cash_amount).sum_eq

/-! ## Claim theorems for listing and aggregation -/

/-- C6: `listForUser` returns exactly the records with the given
`user_id`, `listAll` returns every record (a superset of each per-user
listing), and both are ordered by `timestamp` descending. -/
theorem listing_spec (uid : Nat) (st : Store) :
    (listForUser uid st).Perm (st.rows.filter (fun r => r.user_id = uid))
    ∧ (∀ r : Record, r ∈ listForUser uid st ↔ r ∈ st.rows ∧ r.user_id = uid)
    ∧ (listAll st).Perm st.rows
    ∧ (∀ r : Record, r ∈ listForUser uid st → r ∈ listAll st)
    ∧ (listForUser uid st).Pairwise (fun a b => b.timestamp ≤ a.timestamp)
    ∧ (listAll st).Pairwise (fun a b => b.timestamp ≤ a.timestamp) := by
  refine ⟨List.perm_insertionSort _ _, fun r => mem_listForUser, List.perm_insertionSort _ _,
    ?_, List.sorted_insertionSort byNewest _, List.sorted_insertionSort byNewest _⟩
  intro r hr
  rw [listAll, List.mem_insertionSort]
  exact (mem_listForUser.mp hr).1

/-- C6 witness: in a concrete two-record store the employee's own record is
listed for them and appears in the full listing. -/
theorem listing_spec_witness :
    (⟨1, 1, "Ana", "P", 3, (1500 : Rat), "img", 50⟩ : Record)
      ∈ listAll ⟨3, [⟨1, 1, "Ana", "P", 3, (1500 : Rat), "img", 50⟩,
                     ⟨2, 2, "Bob", "Q", 2, (10 : Rat), "img2", 90000⟩]⟩ :=
  (listing_spec 1 ⟨3, [⟨1, 1, "Ana", "P", 3, (1500 : Rat), "img", 50⟩,
                       ⟨2, 2, "Bob", "Q", 2, (10 : Rat), "img2", 90000⟩]⟩).2.2.2.1
    ⟨1, 1, "Ana", "P", 3, (1500 : Rat), "img", 50⟩
    ((listing_spec 1 ⟨3, [⟨1, 1, "Ana", "P", 3, (1500 : Rat), "img", 50⟩,
                          ⟨2, 2, "Bob", "Q", 2, (10 : Rat), "img2", 90000⟩]⟩).2.1
      ⟨1, 1, "Ana", "P", 3, (1500 : Rat), "img", 50⟩ |>.mpr
      ⟨List.mem_cons_self _ _, rfl⟩)

/-- C4: `dailyTotals` has exactly `min 7 n` entries where `n` is the number
of distinct record-bearing dates (so every distinct date is listed while at
most 7 exist), its dates are strictly descending (hence one entry per
distinct date), every entry's totals are the exact sums of
`bread_count`/`cash_amount` over the records of its date and its date
carries at least one record (a date with no records is absent), and a date
carrying a record is either listed or the rollup is full with 7 entries all
of a more recent date (the listed dates are the most recent 7 distinct
record-bearing dates). -/
theorem dailyTotals_spec (st : Store) :
    (dailyTotals st).length = min 7 (dayKeys st.rows).length
    ∧ (dailyTotals st).length ≤ 7
    ∧ (dailyTotals st).Pairwise (fun a b => b.date < a.date)
    ∧ (∀ e, e ∈ dailyTotals st →
        (∃ r, r ∈ st.rows ∧ dayOf r = e.date)
        ∧ e.total = sumBreadOn e.date st.rows
        ∧ e.total_cash = sumCashOn e.date st.rows)
    ∧ (∀ d, (∃ r, r ∈ st.rows ∧ dayOf r = d) →
        (∃ e, e ∈ dailyTotals st ∧ e.date = d)
        ∨ ((dailyTotals st).length = 7 ∧ ∀ e ∈ dailyTotals st, d < e.date)) := by
  have hlen : (dailyTotals st).length = min 7 (dayKeys st.rows).length := by
    rw [dailyTotals, List.length_map, List.length_take,
      (List.perm_insertionSort dayGE (dayKeys st.rows)).length_eq]
  refine ⟨hlen, ?_, ?_, ?_, ?_⟩
  · rw [hlen]
    exact min_le_left _ _
  · exact List.pairwise_map.mpr
      (List.Pairwise.sublist (List.take_sublist 7 _) (sortedDayKeys_pairwise_gt st.rows))
  · intro e he
    obtain ⟨d, hd, rfl⟩ := List.mem_map.mp he
    refine ⟨?_, rfl, rfl⟩
    exact mem_dayKeys.mp ((List.mem_insertionSort dayGE).mp (List.take_subset 7 _ hd))
  · intro d hpres
    have hdL : d ∈ List.insertionSort dayGE (dayKeys st.rows) :=
      (List.mem_insertionSort dayGE).mpr (mem_dayKeys.mpr hpres)
    rw [← List.take_append_drop 7 (List.insertionSort dayGE (dayKeys st.rows))] at hdL
    rcases List.mem_append.mp hdL with ht | hdr
    · exact Or.inl ⟨dayRowOf st.rows d, List.mem_map_of_mem _ ht, rfl⟩
    · refine Or.inr ⟨?_, ?_⟩
      · have h7 : 7 < (List.insertionSort dayGE (dayKeys st.rows)).length := by
          by_contra hcon
          rw [List.drop_eq_nil_of_le (Nat.le_of_not_lt hcon)] at hdr
          exact absurd hdr (List.not_mem_nil d)
        rw [hlen, (List.perm_insertionSort dayGE (dayKeys st.rows)).length_eq.symm]
        exact Nat.min_eq_left (Nat.le_of_lt h7)
      · intro e he
        obtain ⟨d', hd', rfl⟩ := List.mem_map.mp he
        have hp := sortedDayKeys_pairwise_gt st.rows
        rw [← List.take_append_drop 7 (List.insertionSort dayGE (dayKeys st.rows))] at hp
        exact (List.pairwise_append.mp hp).2.2 d' hd' d hdr

/-- C4 witness: in a concrete one-record store (fewer than 7 distinct
dates), the day of that record is listed: the full-with-7-newer-dates
alternative is ruled out. -/
theorem dailyTotals_spec_witness :
    (∃ e, e ∈ dailyTotals ⟨2, [⟨1, 1, "Ana", "P", 3, (1500 : Rat), "img", 50⟩]⟩
        ∧ e.date = (0 : Nat))
    ∨ ((dailyTotals ⟨2, [⟨1, 1, "Ana", "P", 3, (1500 : Rat), "img", 50⟩]⟩).length = 7
        ∧ ∀ e ∈ dailyTotals ⟨2, [⟨1, 1, "Ana", "P", 3, (1500 : Rat), "img", 50⟩]⟩,
            (0 : Nat) < e.date) :=
  (dailyTotals_spec ⟨2, [⟨1, 1, "Ana", "P", 3, (1500 : Rat), "img", 50⟩]⟩).2.2.2.2 0
    ⟨⟨1, 1, "Ana", "P", 3, (1500 : Rat), "img", 50⟩, List.mem_cons_self _ _, rfl⟩

/-- C5: `employeeTotals` lists exactly the distinct employee names that
appear in at least one record (an employee with no records is absent), each
entry's totals are the exact all-time sums of that employee's
`bread_count`/`cash_amount`, entries are ordered by total bread count
descending, and no name appears twice. -/
theorem employeeTotals_spec (st : Store) :
    (∀ n : String, (∃ e, e ∈ employeeTotals st ∧ e.employee_name = n)
        ↔ ∃ r, r ∈ st.rows ∧ r.employee_name = n)
    ∧ (∀ e, e ∈ employeeTotals st →
        e.total = sumBreadFor e.employee_name st.rows
        ∧ e.total_cash = sumCashFor e.employee_name st.rows)
    ∧ (employeeTotals st).Pairwise (fun a b => b.total ≤ a.total)
    ∧ (employeeTotals st).Pairwise (fun a b => a.employee_name ≠ b.employee_name) := by
  refine ⟨?_, ?_, List.sorted_insertionSort empGE _, ?_⟩
  · intro n
    constructor
    · rintro ⟨e, he, rfl⟩
      obtain ⟨m, hm, rfl⟩ := List.mem_map.mp ((List.mem_insertionSort empGE).mp he)
      exact mem_empKeys.mp hm
    · intro hr
      exact ⟨empRowOf st.rows n,
        (List.mem_insertionSort empGE).mpr (List.mem_map_of_mem _ (mem_empKeys.mpr hr)), rfl⟩
  · intro e he
    obtain ⟨m, _, rfl⟩ := List.mem_map.mp ((List.mem_insertionSort empGE).mp he)
    exact ⟨rfl, rfl⟩
  · refine ((List.perm_insertionSort empGE _).pairwise_iff (fun h => h.symm)).mpr ?_
    exact List.pairwise_map.mpr ((List.nodup_dedup _).imp (fun h => h))

/-- C5 witness: in a concrete store there is a rollup entry named "Ana",
because she has a record. -/
theorem employeeTotals_spec_witness :
    ∃ e, e ∈ employeeTotals ⟨3, [⟨1, 1, "Ana", "P", 3, (1500 : Rat), "img", 50⟩,
                                 ⟨2, 1, "Ana", "Q", 2, (10 : Rat), "img2", 90000⟩]⟩
      ∧ e.employee_name = "Ana" :=
  (employeeTotals_spec ⟨3, [⟨1, 1, "Ana", "P", 3, (1500 : Rat), "img", 50⟩,
                            ⟨2, 1, "Ana", "Q", 2, (10 : Rat), "img2", 90000⟩]⟩).1 "Ana"
    |>.mpr ⟨⟨1, 1, "Ana", "P", 3, (1500 : Rat), "img", 50⟩, List.mem_cons_self _ _, rfl⟩

/-- C7: every exposed operation leaves each existing record in place and
field-for-field unchanged — a step only ever appends to the records table —
and renaming or deleting a user leaves the record store (denormalized
`employee_name` included) exactly equal. -/
theorem records_immutable (op : Op) (st : AppState) (id uid : Nat)
    (email name role : String) (password : Option String) :
    (∃ tail, (step op st).store.rows = st.store.rows ++ tail)
    ∧ (step (Op.updateProfile id email name password) st).store = st.store
    ∧ (step (Op.deleteUser id) st).store = st.store
    ∧ step (Op.getRecords uid role) st = st
    ∧ step Op.getStats st = st := by
  refine ⟨?_, rfl, rfl, rfl, rfl⟩
  cases op with
  | create apiKey vision req now =>
      cases apiKey with
      | none => exact ⟨[], (List.append_nil _).symm⟩
      | some k =>
          cases vision with
          | fail => exact ⟨[], (List.append_nil _).symm⟩
          | ok text => exact ⟨[_], rfl⟩
  | getRecords uid role => exact ⟨[], (List.append_nil _).symm⟩
  | getStats => exact ⟨[], (List.append_nil _).symm⟩
  | updateProfile _ _ _ _ => exact ⟨[], (List.append_nil _).symm⟩
  | deleteUser _ => exact ⟨[], (List.append_nil _).symm⟩

/-- C8: the per-employee rollup is invariant under permutation of the
records: permuted stores give every employee the same exact bread and cash
sums, and every rollup entry of the one store has a matching entry (same
name, same totals) in the other. -/
theorem employeeTotals_perm_invariant (st1 st2 : Store) (h : st1.rows.Perm st2.rows) :
    (∀ n : String, sumBreadFor n st1.rows = sumBreadFor n st2.rows
        ∧ sumCashFor n st1.rows = sumCashFor n st2.rows)
    ∧ ∀ e, e ∈ employeeTotals st1 → ∃ e', e' ∈ employeeTotals st2
        ∧ e'.employee_name = e.employee_name ∧ e'.total = e.total
        ∧ e'.total_cash = e.total_cash := by
  refine ⟨fun n => ⟨sumBreadFor_perm h n, sumCashFor_perm h n⟩, ?_⟩
  intro e he
  obtain ⟨m, hm, rfl⟩ := List.mem_map.mp ((List.mem_insertionSort empGE).mp he)
  obtain ⟨r, hr, hrm⟩ := mem_empKeys.mp hm
  have hm2 : m ∈ empKeys st2.rows := mem_empKeys.mpr ⟨r, h.mem_iff.mp hr, hrm⟩
  exact ⟨empRowOf st2.rows m,
    (List.mem_insertionSort empGE).mpr (List.mem_map_of_mem _ hm2),
    rfl, (sumBreadFor_perm h m).symm, (sumCashFor_perm h m).symm⟩

/-- C8 witness: swapping the two records of a concrete store leaves "Ana"'s
sums unchanged. -/
theorem employeeTotals_perm_invariant_witness :
    sumBreadFor "Ana" [⟨1, 1, "Ana", "P", 3, (1500 : Rat), "img", 50⟩,
                       ⟨2, 1, "Ana", "Q", 2, (10 : Rat), "img2", 90000⟩]
      = sumBreadFor "Ana" [⟨2, 1, "Ana", "Q", 2, (10 : Rat), "img2", 90000⟩,
                           ⟨1, 1, "Ana", "P", 3, (1500 : Rat), "img", 50⟩]
    ∧ sumCashFor "Ana" [⟨1, 1, "Ana", "P", 3, (1500 : Rat), "img", 50⟩,
                        ⟨2, 1, "Ana", "Q", 2, (10 : Rat), "img2", 90000⟩]
      = sumCashFor "Ana" [⟨2, 1, "Ana", "Q", 2, (10 : Rat), "img2", 90000⟩,
                          ⟨1, 1, "Ana", "P", 3, (1500 : Rat), "img", 50⟩] :=
  (employeeTotals_perm_invariant
    ⟨3, [⟨1, 1, "Ana", "P", 3, (1500 : Rat), "img", 50⟩,
         ⟨2, 1, "Ana", "Q", 2, (10 : Rat), "img2", 90000⟩]⟩
    ⟨3, [⟨2, 1, "Ana", "Q", 2, (10 : Rat), "img2", 90000⟩,
         ⟨1, 1, "Ana", "P", 3, (1500 : Rat), "img", 50⟩]⟩
    (List.Perm.swap _ _ _)).1 "Ana"

end Goitom
